import Mathlib

/-
  Verification of the heuristic content-analysis routines of the
  agentic-content-management-team repository, as a shallow embedding.

  Text is modelled as `List Char`; Python string methods (split, strip,
  lower, title, count, substring membership) and the regex searches used
  by the code are translated directly; numeric scores (Python floats used
  only for exact decimal arithmetic here) are modelled as rationals.

  Sources embedded:
    src/src/agents/content_editor_agent.py
      _review_cultural_sensitivity, _optimize_readability (sentence phase),
      _optimize_for_mobile, _has_indian_context, _calculate_quality_scores
    src/src/agents/content_writer_agent.py
      _extract_business_info (name, location, price_range, target_age fields)
-/

set_option maxRecDepth 20000

namespace CMT

/-- Text is a list of characters (a Python `str`). -/
abbrev Text := List Char

/-- The character list of a Lean string literal. -/
def lit (s : String) : Text := s.data

/-- Whitespace characters: the ASCII set recognized by Python
    `str.split()` / `str.strip()` and by the regex class `\s`. -/
def isPyWs (c : Char) : Bool :=
  c = ' ' || c = '\t' || c = '\n' || c = '\r' || c = '\x0b' || c = '\x0c'

/-- Accumulator loop for `pySplitWs`. -/
def splitWsAux : Text → Text → List Text
  | [], acc => if acc = [] then [] else [acc.reverse]
  | c :: cs, acc =>
    if isPyWs c then
      (if acc = [] then splitWsAux cs [] else acc.reverse :: splitWsAux cs [])
    else splitWsAux cs (c :: acc)

/-- Python `s.split()` with no argument: split on runs of whitespace,
    discarding empty pieces. -/
def pySplitWs (s : Text) : List Text := splitWsAux s []

/-- Python `s.split(sep)` for a one-character separator:
    keeps empty pieces. -/
def splitOnChar (sep : Char) : Text → List Text
  | [] => [[]]
  | c :: cs =>
    if c = sep then [] :: splitOnChar sep cs
    else
      match splitOnChar sep cs with
      | [] => [[c]]
      | w :: ws => (c :: w) :: ws

/-- Python `s.split("\n\n")`: leftmost non-overlapping occurrences of the
    two-character separator, keeping empty pieces. -/
def splitOnNl2 : Text → List Text
  | [] => [[]]
  | [c] => [[c]]
  | c1 :: c2 :: cs =>
    if c1 = '\n' && c2 = '\n' then [] :: splitOnNl2 cs
    else
      match splitOnNl2 (c2 :: cs) with
      | [] => [[c1]]
      | w :: ws => (c1 :: w) :: ws

/-- Python `sep.join(pieces)`. -/
def joinSep (sep : Text) : List Text → Text
  | [] => []
  | [p] => p
  | p :: q :: ps => p ++ sep ++ joinSep sep (q :: ps)

/-- Python `s.strip()` (whitespace from both ends). -/
def pyStrip (s : Text) : Text :=
  ((s.dropWhile isPyWs).reverse.dropWhile isPyWs).reverse

/-- ASCII lowercasing of a character (Python `str.lower`, restricted to the
    ASCII letters, which is exhaustive for the keyword tables involved). -/
def lowerChar (c : Char) : Char :=
  if 'A' ≤ c && c ≤ 'Z' then Char.ofNat (c.toNat + 32) else c

/-- ASCII uppercasing of a character. -/
def upperChar (c : Char) : Char :=
  if 'a' ≤ c && c ≤ 'z' then Char.ofNat (c.toNat - 32) else c

/-- Python `s.lower()`. -/
def pyLower (s : Text) : Text := s.map lowerChar

/-- ASCII letter test (Python `str.isalpha` on the ASCII range, the notion
    of "cased character" driving `str.title`). -/
def isAsciiAlpha (c : Char) : Bool :=
  ('a' ≤ c && c ≤ 'z') || ('A' ≤ c && c ≤ 'Z')

/-- State-passing loop for `pyTitle`: the Boolean records whether the
    previous character was a letter. -/
def titleAux : Bool → Text → Text
  | _, [] => []
  | prevAlpha, c :: cs =>
    if isAsciiAlpha c then
      (if prevAlpha then lowerChar c else upperChar c) :: titleAux true cs
    else c :: titleAux false cs

/-- Python `s.title()`: uppercase every letter that follows a non-letter,
    lowercase every other letter. -/
def pyTitle (s : Text) : Text := titleAux false s

/-- Python substring membership `needle in hay`. -/
def containsSub (needle : Text) : Text → Bool
  | [] => needle.isPrefixOf []
  | c :: cs => needle.isPrefixOf (c :: cs) || containsSub needle cs

/-- Loop for `countSub`: `skip` counts characters still covered by the
    previous accepted occurrence (occurrences must not overlap). -/
def countSubAux (needle : Text) : Nat → Text → Nat
  | _, [] => 0
  | skip + 1, _ :: cs => countSubAux needle skip cs
  | 0, c :: cs =>
    if needle.isPrefixOf (c :: cs)
    then 1 + countSubAux needle (needle.length - 1) cs
    else countSubAux needle 0 cs

/-- Python `hay.count(needle)` for a nonempty needle: the number of
    non-overlapping occurrences, scanned from the left. -/
def countSub (needle : Text) (hay : Text) : Nat := countSubAux needle 0 hay

/-- Python `hay.index(needle)`: position of the first occurrence. -/
def idxOfSub (needle : Text) : Text → Option Nat
  | [] => if needle = [] then some 0 else none
  | c :: cs =>
    if needle.isPrefixOf (c :: cs) then some 0
    else (idxOfSub needle cs).map (· + 1)

/-! ### content_editor_agent: quality scores and cultural review -/

/-- The Indian-context indicator table of `_has_indian_context`. -/
def indian_indicators : List Text :=
  [lit "india", lit "indian", lit "mumbai", lit "delhi", lit "bangalore",
   lit "chennai", lit "rupee", lit "₹", lit "lakh", lit "crore",
   lit "diwali", lit "holi", lit "bollywood", lit "cricket", lit "chai",
   lit "namaste"]

/-- `_has_indian_context`: any indicator occurs in the lowercased content. -/
def has_indian_context (content : Text) : Bool :=
  indian_indicators.any (fun ind => containsSub ind (pyLower content))

/-- `sentences` as computed inside `_calculate_quality_scores`:
    split on "." keeping only pieces that are nonblank after stripping. -/
def sentencesOf (content : Text) : List Text :=
  (splitOnChar '.' content).filter (fun s => pyStrip s ≠ [])

/-- `paragraphs` as computed inside `_calculate_quality_scores`:
    split on blank lines keeping only nonblank pieces. -/
def paragraphsOf (content : Text) : List Text :=
  (splitOnNl2 content).filter (fun p => pyStrip p ≠ [])

/-- The engagement indicator table of `_calculate_quality_scores`. -/
def engagement_indicators : List Text :=
  [lit "?", lit "!", lit "you", lit "your", lit "we", lit "our"]

/-- `engagement_count`: total of `content.lower().count(indicator)` over
    the engagement indicator table. -/
def engagement_count (content : Text) : Nat :=
  (engagement_indicators.map (fun ind => countSub ind (pyLower content))).sum

/-- The record returned by `_calculate_quality_scores`. -/
structure QualityScores where
  readability_score : ℚ
  cultural_relevance : ℚ
  mobile_optimization : ℚ
  engagement_potential : ℚ
  overall_quality : ℚ
deriving DecidableEq, Repr

/-- Average words per sentence, `len(words) / len(sentences)`, as used by
    `_calculate_quality_scores` (only meaningful when sentences exist). -/
def avg_sentence_length (content : Text) : ℚ :=
  ((pySplitWs content).length : ℚ) / ((sentencesOf content).length : ℚ)

/-- `_calculate_quality_scores` (content_editor_agent.py line 860). -/
def calculate_quality_scores (content : Text) : QualityScores :=
  let words := pySplitWs content
  let sentences := sentencesOf content
  let readability : ℚ :=
    if sentences.length ≠ 0 then
      let avg : ℚ := (words.length : ℚ) / (sentences.length : ℚ)
      min 100 (max 0 (100 - (avg - 15) * 3))
    else 0
  let cultural : ℚ := if has_indian_context content then 85 else 40
  let paragraphs := paragraphsOf content
  let mobile : ℚ :=
    if paragraphs.length ≠ 0 then
      let avgp : ℚ :=
        (((paragraphs.map (fun p => (pySplitWs p).length)).sum : ℚ))
          / (paragraphs.length : ℚ)
      min 100 (max 0 (100 - (avgp - 50) * 2))
    else 0
  let engagement : ℚ := min 100 ((engagement_count content : ℚ) * 5)
  { readability_score := readability
    cultural_relevance := cultural
    mobile_optimization := mobile
    engagement_potential := engagement
    overall_quality :=
      readability * 0.3 + cultural * 0.3 + mobile * 0.2 + engagement * 0.2 }

/-- The sensitive-term table of `_review_cultural_sensitivity`. -/
def sensitive_terms : List Text :=
  [lit "backward", lit "primitive", lit "uneducated", lit "illiterate",
   lit "poor people", lit "rich people", lit "typical indian",
   lit "all indians", lit "village people"]

/-- The Indian-city table of `_review_cultural_sensitivity`. -/
def indian_cities : List Text :=
  [lit "mumbai", lit "delhi", lit "bangalore", lit "chennai",
   lit "kolkata", lit "hyderabad", lit "pune"]

/-- The exclusive-language table of `_review_cultural_sensitivity`. -/
def exclusive_terms : List Text := [lit "guys", lit "manpower", lit "chairman"]

/-- `regions_mentioned`: the cities of the table occurring in the
    lowercased content. -/
def regions_mentioned (content : Text) : List Text :=
  indian_cities.filter (fun c => containsSub c (pyLower content))

/-- The assessment record built by `_review_cultural_sensitivity`
    (the suggestion and issue message lists are not modelled). -/
structure CulturalAssessment where
  sensitivity_score : ℤ
  regional_balance : Bool
  inclusive_language : Bool
deriving DecidableEq, Repr

/-- `_review_cultural_sensitivity` (content_editor_agent.py line 563):
    start at 100 and deduct 10 per sensitive term found; regional balance
    holds iff at least two cities of the table are mentioned; inclusive
    language is cleared by any exclusive term. -/
def review_cultural_sensitivity (content : Text) : CulturalAssessment :=
  let cl := pyLower content
  { sensitivity_score :=
      100 - 10 * ((sensitive_terms.filter (fun t => containsSub t cl)).length : ℤ)
    regional_balance := decide ((regions_mentioned content).length ≥ 2)
    inclusive_language := !(exclusive_terms.any (fun t => containsSub t cl)) }

/-! ### content_editor_agent: _optimize_for_mobile -/

/-- The paragraph separator, a blank line. -/
def nl2 : Text := lit "\n\n"

/-- Greedy sentence-packing loop of `_optimize_for_mobile`: flush the
    current chunk when adding the next sentence would exceed 75 words and
    the chunk is nonempty. -/
def chunkLoop : List Text → List Text → Nat → List Text
  | [], current, _ => if current ≠ [] then [joinSep (lit " ") current] else []
  | s :: rest, current, cwc =>
    let sw := (pySplitWs s).length
    if cwc + sw > 75 ∧ current ≠ [] then
      joinSep (lit " ") current :: chunkLoop rest [s] sw
    else chunkLoop rest (current ++ [s]) (cwc + sw)

/-- Per-paragraph processing of `_optimize_for_mobile`: paragraphs of
    more than 75 words are cut into sentences (each stripped piece gets a
    trailing period) and greedily repacked; others pass through. -/
def processParagraph (p : Text) : List Text :=
  if (pySplitWs p).length > 75 then
    chunkLoop ((splitOnChar '.' p).filterMap
      (fun s => if pyStrip s ≠ [] then some (pyStrip s ++ ['.']) else none)) [] 0
  else [p]

/-- The paragraph phase of `_optimize_for_mobile`. -/
def mobileRepack (content : Text) : Text :=
  joinSep nl2 ((splitOnNl2 content).map processParagraph).flatten

/-- The list-indicator table of `_optimize_for_mobile`. -/
def list_indicators : List Text :=
  [lit "benefits include", lit "features are", lit "we offer",
   lit "services include"]

/-- Whether the regex `indicator[^.]*\.` (with IGNORECASE) matches, taken
    on the lowercased text: some occurrence of the indicator is followed,
    at any later position, by a period. -/
def hasIndicatorPeriod (ind : Text) : Text → Bool
  | [] => false
  | c :: cs =>
    (ind.isPrefixOf (c :: cs) && ((c :: cs).drop ind.length).contains '.')
      || hasIndicatorPeriod ind cs

/-- An ASCII single quote. -/
def squote : Char := Char.ofNat 39

/-- The mobile-optimization suggestion appended for an indicator. -/
def suggestionFor (ind : Text) : Text :=
  lit "\n\n📱 Mobile Optimization Suggestion: Consider converting the list after "
    ++ squote :: ind ++ squote :: lit " into bullet points for better mobile readability."

/-- The bullet-point advisory step of `_optimize_for_mobile`: the first
    indicator of the table that occurs in the lowercased text with a
    period somewhere after an occurrence appends one suggestion. -/
def bulletStep (t : Text) : Text :=
  match list_indicators.find?
      (fun ind => containsSub ind (pyLower t) && hasIndicatorPeriod ind (pyLower t)) with
  | some ind => t ++ suggestionFor ind
  | none => t

/-- `_optimize_for_mobile` (content_editor_agent.py line 742), content
    field of the returned record. -/
def optimize_for_mobile (content : Text) : Text :=
  bulletStep (mobileRepack content)

/-! ### content_editor_agent: sentence splitting in _optimize_readability -/

/-- The conjunction table of `_optimize_readability`. -/
def split_points : List Text :=
  [lit "and", lit "but", lit "however", lit "because", lit "since",
   lit "while"]

/-- The split-point search of `_optimize_readability`: conjunctions are
    tried in table order; for each one present, only the first occurrence
    in the lowercased sentence is examined, and it is chosen when the
    prefix before it has strictly between 10 and 20 words. -/
def findBestSplit (sentence : Text) : Option Nat :=
  split_points.findSome? (fun point =>
    match idxOfSub point (pyLower sentence) with
    | some i =>
      if 10 < (pySplitWs (sentence.take i)).length
          ∧ (pySplitWs (sentence.take i)).length < 20
      then some i else none
    | none => none)

/-- Sentence processing inside `_optimize_readability` for a stripped
    nonempty sentence: sentences of more than 25 words are split at the
    found position (`if best_split:` also rejects position 0); others
    pass through. -/
def processSentence (sentence : Text) : List Text :=
  if (pySplitWs sentence).length > 25 then
    match findBestSplit sentence with
    | some i =>
      if i ≠ 0 then [pyStrip (sentence.take i), pyStrip (sentence.drop i)]
      else [sentence]
    | none => [sentence]
  else [sentence]

/-- Modelled from the spec wording, for comparison with the code: a
    position qualifies when some conjunction of the table occurs there
    and the words to its left number strictly between 10 and 20. -/
def specQualAt (sentence : Text) (i : Nat) : Bool :=
  split_points.any (fun p => p.isPrefixOf ((pyLower sentence).drop i))
    && (10 < (pySplitWs (sentence.take i)).length
        && (pySplitWs (sentence.take i)).length < 20)

/-- Modelled from the spec wording, for comparison with the code: the
    earliest qualifying conjunction position of the sentence. -/
def specFirstQualifyingSplit (sentence : Text) : Option Nat :=
  (List.range (sentence.length + 1)).find? (specQualAt sentence)

/-! ### content_writer_agent: _extract_business_info -/

/-- Length of the maximal whitespace run at the head (regex `\s*`). -/
def reWsRun (s : Text) : Nat := (s.takeWhile isPyWs).length

/-- Membership in the regex class `[^,\n]`. -/
def isCcls (c : Char) : Bool := c ≠ ',' && c ≠ '\n'

/-- The head character exists and lies in `[^,\n]`. -/
def capHead : Text → Bool
  | [] => false
  | c :: _ => isCcls c

/-- Backtracking of greedy `\s*` before `[^,\n]+`: the largest amount
    `w' ≤ w` of consumed whitespace leaving a `[^,\n]` character at
    position `w'`. -/
def backtrackPos (rest : Text) : Nat → Option Nat
  | 0 => if capHead rest then some 0 else none
  | w + 1 =>
    if capHead (rest.drop (w + 1)) then some (w + 1) else backtrackPos rest w

/-- Matching `\s*([^,\n]+)` at a fixed position (the text after the
    literal part of the pattern): greedy whitespace with backtracking,
    then the maximal nonempty `[^,\n]` run is the captured group. -/
def tryWsCapture (rest : Text) : Option Text :=
  match backtrackPos rest (reWsRun rest) with
  | some w => some ((rest.drop w).takeWhile isCcls)
  | none => none

/-- `re.search` for a pattern made of a literal prefix followed by a
    tail matcher: candidate start positions are scanned left to right,
    and the first position where the whole pattern matches wins. -/
def searchWith (pat : Text) (tryTail : Text → Option Text) : Text → Option Text
  | [] => none
  | c :: cs =>
    match (if pat.isPrefixOf (c :: cs) then tryTail ((c :: cs).drop pat.length)
           else none) with
    | some g => some g
    | none => searchWith pat tryTail cs

/-- Membership in the regex class `[a-z]`. -/
def isLowerAZ (c : Char) : Bool := 'a' ≤ c && c ≤ 'z'

/-- State machine for `\s+([a-z]+(?:\s+[a-z]+)*),` after its first
    whitespace character: state 0 = inside the leading whitespace,
    state 1 = inside a letter run (`grp` holds the group captured so
    far), state 2 = inside a whitespace gap after a word (`ws` holds the
    pending gap characters). The regex admits no other outcome than
    greedily consuming word after word, and succeeds exactly when a comma
    immediately follows a letter. -/
def inPatRun : Nat → Text → Text → Text → Option Text
  | _, _, _, [] => none
  | 0, _, _, c :: cs =>
    if isPyWs c then inPatRun 0 [] [] cs
    else if isLowerAZ c then inPatRun 1 [c] [] cs
    else none
  | 1, grp, _, c :: cs =>
    if isLowerAZ c then inPatRun 1 (grp ++ [c]) [] cs
    else if c = ',' then some grp
    else if isPyWs c then inPatRun 2 grp [c] cs
    else none
  | _, grp, ws, c :: cs =>
    if isPyWs c then inPatRun 2 grp (ws ++ [c]) cs
    else if isLowerAZ c then inPatRun 1 (grp ++ ws ++ [c]) [] cs
    else none

/-- Matching the tail `\s+([a-z]+(?:\s+[a-z]+)*),` of the third location
    pattern after an occurrence of the literal `in`. -/
def tryInPat : Text → Option Text
  | [] => none
  | c :: cs => if isPyWs c then inPatRun 0 [] [] cs else none

/-- Matching `(\d+)-(\d+)` at a fixed position: a maximal nonempty digit
    run, a hyphen, a maximal nonempty digit run; returns the two digit
    groups. -/
def tryAge (rest : Text) : Option (Text × Text) :=
  let d1 := rest.takeWhile Char.isDigit
  if d1 = [] then none
  else
    let r2 := rest.drop d1.length
    if r2.head? = some '-' then
      let d2 := r2.tail.takeWhile Char.isDigit
      if d2 = [] then none else some (d1, d2)
    else none

/-- `re.search` of `(\d+)-(\d+)` over the whole brief. -/
def searchAge : Text → Option (Text × Text)
  | [] => none
  | c :: cs =>
    match tryAge (c :: cs) with
    | some r => some r
    | none => searchAge cs

/-- Matching the part of `₹(\d+)-(\d+)` after the rupee sign; returns
    the matched text of the two groups joined by the hyphen. -/
def tryPriceTail (rest : Text) : Option Text :=
  match tryAge rest with
  | some (d1, d2) => some (d1 ++ '-' :: d2)
  | none => none

/-- The business-name pattern table (each `\s*([^,\n]+)` after the
    literal shown), in source order. -/
def name_patterns : List Text :=
  [lit "restaurant name:", lit "business:", lit "company:"]

/-- The location matcher table, in source order: `location:\s*([^,\n]+)`,
    `based in:\s*([^,\n]+)`, `in\s+([a-z]+(?:\s+[a-z]+)*),`. -/
def location_matchers : List (Text → Option Text) :=
  [searchWith (lit "location:") tryWsCapture,
   searchWith (lit "based in:") tryWsCapture,
   searchWith (lit "in") tryInPat]

/-- The fields of the record built by `_extract_business_info` that the
    claims concern (industry, offering and the usp fields are derived by
    separate helpers and are not modelled). -/
structure BusinessInfo where
  name : Text
  location : Text
  price_range : Text
  target_age : Text
deriving DecidableEq, Repr

/-- `_extract_business_info` (content_writer_agent.py line 929): name and
    location patterns run over the lowercased brief, first match wins,
    stripped and title-cased, with named defaults; the price and age
    patterns run over the original brief. -/
def extract_business_info (brief : Text) : BusinessInfo :=
  let bl := pyLower brief
  let business_name :=
    match name_patterns.findSome? (fun pat => searchWith pat tryWsCapture bl) with
    | some g => pyTitle (pyStrip g)
    | none => lit "Your Business"
  let location :=
    match location_matchers.findSome? (fun m => m bl) with
    | some g => pyTitle (pyStrip g)
    | none => lit "India"
  let price_range :=
    match searchWith (lit "₹") tryPriceTail brief with
    | some g => '₹' :: g
    | none => lit "₹200-500"
  let target_age :=
    match searchAge brief with
    | some (d1, d2) => d1 ++ '-' :: d2
    | none => lit "25-35"
  { name := business_name, location := location,
    price_range := price_range, target_age := target_age }

/-! ### Concrete inputs used by witnesses and counterexamples -/

/-- A text of one sentence of fifteen words. -/
def fifteenWordText : Text := lit "a a a a a a a a a a a a a a a."

/-- A text whose every paragraph is short and which triggers no
    list-indicator suggestion. -/
def compliantText : Text := lit "Short paragraph.\n\nAnother one."

/-- A text containing a list indicator followed by a period. -/
def mobEx1 : Text := lit "Benefits include speed."

/-- A single sentence of 76 words and no period. -/
def mobEx2 : Text := joinSep (lit " ") (List.replicate 76 (lit "word"))

/-- A 26-word sentence whose first `and` has a 5-word left clause and
    whose second `and` has a 15-word left clause. -/
def ex9 : Text :=
  joinSep (lit " ")
    (List.replicate 5 (lit "w") ++ [lit "and"] ++ List.replicate 9 (lit "w")
      ++ [lit "and"] ++ List.replicate 10 (lit "w"))

/-- A 30-word sentence whose only conjunction occurrence is `because`,
    with a 14-word left clause (first occurrence at character 28). -/
def exB : Text :=
  joinSep (lit " ")
    (List.replicate 14 (lit "w") ++ [lit "because"] ++ List.replicate 15 (lit "w"))

/-- A 30-word sentence containing no conjunction of the table. -/
def exC : Text := joinSep (lit " ") (List.replicate 30 (lit "w"))

/-- The brief of the spec example for field extraction. -/
def brief6 : Text := lit "Restaurant Name: Spice Route, Location: Bandra West, Mumbai"

/-- A brief matching no extraction pattern. -/
def brief7 : Text := lit "hello"

/-- A brief whose first name pattern matches. -/
def brief7b : Text := lit "Restaurant Name: Tea House"

/-- Texts with two cities, and with one city among more than 200 words. -/
def cities2Text : Text := lit "compare mumbai with delhi"

/-- One city mentioned in a 201-word text. -/
def oneCityLongText : Text := joinSep (lit " ") (lit "pune" :: List.replicate 200 (lit "w"))

/-- A digit-free prefix before a price range. -/
def pre10 : Text := lit "Menu: "

/-- A digit-free nonempty stretch between price range and age range. -/
def mid10 : Text := lit ", ages "

/-- Text after the age range. -/
def post10 : Text := lit " urban"

/-! ### Shared lemmas -/

/-- The clamp `min 100 (max 0 q)` used by the score formulas lies in
    `[0, 100]`. -/
theorem clamp_mem (q : ℚ) : 0 ≤ min 100 (max 0 q) ∧ min 100 (max 0 q) ≤ 100 :=
  ⟨le_min (by norm_num) (le_max_left 0 q), min_le_left _ _⟩

/-- Readability score bounds. -/
theorem readability_mem (content : Text) :
    0 ≤ (calculate_quality_scores content).readability_score ∧
      (calculate_quality_scores content).readability_score ≤ 100 := by
  simp only [calculate_quality_scores]
  split_ifs
  · exact clamp_mem _
  · norm_num

/-- Cultural relevance score bounds. -/
theorem cultural_mem (content : Text) :
    0 ≤ (calculate_quality_scores content).cultural_relevance ∧
      (calculate_quality_scores content).cultural_relevance ≤ 100 := by
  simp only [calculate_quality_scores]
  split_ifs <;> norm_num

/-- Mobile optimization score bounds. -/
theorem mobile_mem (content : Text) :
    0 ≤ (calculate_quality_scores content).mobile_optimization ∧
      (calculate_quality_scores content).mobile_optimization ≤ 100 := by
  simp only [calculate_quality_scores]
  split_ifs
  · exact clamp_mem _
  · norm_num

/-- Engagement score bounds. -/
theorem engagement_mem (content : Text) :
    0 ≤ (calculate_quality_scores content).engagement_potential ∧
      (calculate_quality_scores content).engagement_potential ≤ 100 := by
  simp only [calculate_quality_scores]
  constructor
  · exact le_min (by norm_num) (by positivity)
  · exact min_le_left _ _

/-- The overall score is definitionally the weighted sum of the four
    sub-scores. -/
theorem overall_eq (content : Text) :
    (calculate_quality_scores content).overall_quality
      = (calculate_quality_scores content).readability_score * 0.3
        + (calculate_quality_scores content).cultural_relevance * 0.3
        + (calculate_quality_scores content).mobile_optimization * 0.2
        + (calculate_quality_scores content).engagement_potential * 0.2 := rfl

/-! ### C1 -/

/-- C1: for every input text, the five quality scores and the cultural
    sensitivity score all lie in the interval [0, 100]. -/
theorem C1_all_scores_in_range (content : Text) :
    (0 ≤ (calculate_quality_scores content).readability_score ∧
      (calculate_quality_scores content).readability_score ≤ 100) ∧
    (0 ≤ (calculate_quality_scores content).cultural_relevance ∧
      (calculate_quality_scores content).cultural_relevance ≤ 100) ∧
    (0 ≤ (calculate_quality_scores content).mobile_optimization ∧
      (calculate_quality_scores content).mobile_optimization ≤ 100) ∧
    (0 ≤ (calculate_quality_scores content).engagement_potential ∧
      (calculate_quality_scores content).engagement_potential ≤ 100) ∧
    (0 ≤ (calculate_quality_scores content).overall_quality ∧
      (calculate_quality_scores content).overall_quality ≤ 100) ∧
    (0 ≤ (review_cultural_sensitivity content).sensitivity_score ∧
      (review_cultural_sensitivity content).sensitivity_score ≤ 100) := by
  obtain ⟨r0, r1⟩ := readability_mem content
  obtain ⟨c0, c1⟩ := cultural_mem content
  obtain ⟨m0, m1⟩ := mobile_mem content
  obtain ⟨e0, e1⟩ := engagement_mem content
  refine ⟨⟨r0, r1⟩, ⟨c0, c1⟩, ⟨m0, m1⟩, ⟨e0, e1⟩, ?_, ?_⟩
  · rw [overall_eq]
    constructor <;> nlinarith
  · have hk : (sensitive_terms.filter
        (fun t => containsSub t (pyLower content))).length ≤ 9 := by
      have h := List.length_filter_le
        (fun t => containsSub t (pyLower content)) sensitive_terms
      simpa [sensitive_terms] using h
    simp only [review_cultural_sensitivity]
    omega

/-! ### C2 -/

/-- C2: for a text with at least one sentence, the readability score is
    the clamp of `100 - (avg_words_per_sentence - 15) * 3` to [0, 100];
    at average 15 it is exactly 100, at average 40 exactly 25. -/
theorem C2_readability_formula (content : Text)
    (h : sentencesOf content ≠ []) :
    (calculate_quality_scores content).readability_score
        = min 100 (max 0 (100 - (avg_sentence_length content - 15) * 3))
    ∧ (avg_sentence_length content = 15 →
        (calculate_quality_scores content).readability_score = 100)
    ∧ (avg_sentence_length content = 40 →
        (calculate_quality_scores content).readability_score = 25) := by
  have hlen : (sentencesOf content).length ≠ 0 :=
    fun hc => h (List.length_eq_zero.mp hc)
  have e : (calculate_quality_scores content).readability_score
      = min 100 (max 0 (100 - (avg_sentence_length content - 15) * 3)) := by
    simp only [calculate_quality_scores, avg_sentence_length]
    rw [if_pos hlen]
  refine ⟨e, fun h15 => ?_, fun h40 => ?_⟩
  · rw [e, h15]; norm_num
  · rw [e, h40]; norm_num

/-- Witness for C2 at a one-sentence, fifteen-word text. -/
theorem C2_readability_formula_witness :
    sentencesOf fifteenWordText ≠ [] ∧
      (calculate_quality_scores fifteenWordText).readability_score = 100 := by
  have h : sentencesOf fifteenWordText ≠ [] := by decide
  have h15 : avg_sentence_length fifteenWordText = 15 := by
    have e1 : (pySplitWs fifteenWordText).length = 15 := by decide
    have e2 : (sentencesOf fifteenWordText).length = 1 := by decide
    rw [avg_sentence_length, e1, e2]
    norm_num
  exact ⟨h, (C2_readability_formula fifteenWordText h).2.1 h15⟩

/-! ### C3 -/

/-- C3: the overall score is the 0.3/0.3/0.2/0.2 weighted sum; cultural
    relevance is 85 with Indian context and 40 without; engagement is
    five times the indicator count, capped at 100. -/
theorem C3_overall_weighted_formula (content : Text) :
    (calculate_quality_scores content).overall_quality
        = (calculate_quality_scores content).readability_score * 0.3
          + (calculate_quality_scores content).cultural_relevance * 0.3
          + (calculate_quality_scores content).mobile_optimization * 0.2
          + (calculate_quality_scores content).engagement_potential * 0.2
    ∧ (calculate_quality_scores content).cultural_relevance
        = (if has_indian_context content then (85 : ℚ) else 40)
    ∧ (calculate_quality_scores content).engagement_potential
        = min 100 ((engagement_count content : ℚ) * 5) :=
  ⟨rfl, rfl, rfl⟩

/-! ### C4 -/

/-- C4: on the empty string the readability, mobile-optimization and
    engagement scores are all the 0.0 default (the function is total, so
    no exception is possible). -/
theorem C4_empty_input_zero_scores :
    (calculate_quality_scores []).readability_score = 0 ∧
    (calculate_quality_scores []).mobile_optimization = 0 ∧
    (calculate_quality_scores []).engagement_potential = 0 := by
  have h1 : sentencesOf [] = [] := by decide
  have h2 : paragraphsOf [] = [] := by decide
  have h3 : engagement_count [] = 0 := by decide
  simp only [calculate_quality_scores, h1, h2, h3]
  norm_num

/-! ### C8 -/

/-- C8: the regional balance flag is set exactly when at least two
    distinct cities of the table occur; with more than 200 words but only
    one city it stays clear. -/
theorem C8_regional_balance (content : Text) :
    (2 ≤ (regions_mentioned content).length →
      (review_cultural_sensitivity content).regional_balance = true)
    ∧ (200 < (pySplitWs content).length →
        (regions_mentioned content).length = 1 →
        (review_cultural_sensitivity content).regional_balance = false) := by
  constructor
  · intro h
    simp [review_cultural_sensitivity, h]
  · intro _ h1
    simp [review_cultural_sensitivity, h1]

/-- Witness for C8: a two-city text, and a 201-word text with one city. -/
theorem C8_regional_balance_witness :
    (2 ≤ (regions_mentioned cities2Text).length ∧
      (review_cultural_sensitivity cities2Text).regional_balance = true)
    ∧ (200 < (pySplitWs oneCityLongText).length ∧
        (regions_mentioned oneCityLongText).length = 1 ∧
        (review_cultural_sensitivity oneCityLongText).regional_balance = false) :=
  ⟨⟨by decide, (C8_regional_balance cities2Text).1 (by decide)⟩,
   ⟨by decide, by decide,
    (C8_regional_balance oneCityLongText).2 (by decide) (by decide)⟩⟩

/-! ### C5 -/

/-- Flattening a map to singletons is the identity. -/
theorem flatten_map_singleton {α : Type} (l : List α) :
    (l.map (fun a => [a])).flatten = l := by
  induction l with
  | nil => rfl
  | cons a l ih => simp [ih]

/-- `splitOnNl2` always returns at least one piece. -/
theorem splitOnNl2_ne_nil : ∀ s : Text, splitOnNl2 s ≠ []
  | [] => by simp [splitOnNl2]
  | [c] => by simp [splitOnNl2]
  | c1 :: c2 :: cs => by
    simp only [splitOnNl2]
    split
    · simp
    · split <;> simp

/-- Joining a list whose head piece is extended by one character. -/
theorem joinSep_cons_head (sep : Text) (c : Char) (w : Text) (ws : List Text) :
    joinSep sep ((c :: w) :: ws) = c :: joinSep sep (w :: ws) := by
  cases ws <;> simp [joinSep]

/-- Splitting on blank lines and joining the pieces back with blank lines
    recovers the text. -/
theorem joinSep_splitOnNl2 : ∀ s : Text, joinSep nl2 (splitOnNl2 s) = s
  | [] => rfl
  | [c] => rfl
  | c1 :: c2 :: cs => by
    by_cases h : (c1 = '\n' && c2 = '\n') = true
    · obtain ⟨w, ws, hws⟩ := List.exists_cons_of_ne_nil (splitOnNl2_ne_nil cs)
      have ih := joinSep_splitOnNl2 cs
      rw [hws] at ih
      simp only [Bool.and_eq_true, decide_eq_true_eq] at h
      obtain ⟨hc1, hc2⟩ := h
      subst hc1; subst hc2
      have hsp : splitOnNl2 ('\n' :: '\n' :: cs) = [] :: splitOnNl2 cs := by
        simp [splitOnNl2]
      rw [hsp, hws]
      simpa [joinSep, nl2, lit] using ih
    · obtain ⟨w, ws, hws⟩ := List.exists_cons_of_ne_nil (splitOnNl2_ne_nil (c2 :: cs))
      have ih := joinSep_splitOnNl2 (c2 :: cs)
      rw [hws] at ih
      simp only [splitOnNl2, if_neg h, hws]
      rw [joinSep_cons_head, ih]

/-- A paragraph of at most 75 words passes through the repacking step
    unchanged. -/
theorem processParagraph_short (p : Text) (h : (pySplitWs p).length ≤ 75) :
    processParagraph p = [p] := by
  simp only [processParagraph]
  rw [if_neg (by omega)]

/-- C5 counterexample: the optimizer is not idempotent (a text with a
    list indicator gains a fresh suggestion on every pass), and one pass
    can leave a paragraph of more than 75 words (a single long sentence
    is kept whole). -/
theorem C5_counterexample :
    optimize_for_mobile (optimize_for_mobile mobEx1) ≠ optimize_for_mobile mobEx1
    ∧ (splitOnNl2 (optimize_for_mobile mobEx2)).any
        (fun p => 75 < (pySplitWs p).length) = true :=
  ⟨by decide, by decide⟩

/-- C5 amended: a text all of whose paragraphs have at most 75 words and
    which triggers no list-indicator suggestion is a fixed point of the
    optimizer; in particular repacking already-compliant paragraphs is a
    no-op. -/
theorem C5_amended_fixed_point (content : Text)
    (h75 : (splitOnNl2 content).all (fun p => (pySplitWs p).length ≤ 75) = true)
    (hind : list_indicators.all
        (fun ind => !hasIndicatorPeriod ind (pyLower content)) = true) :
    optimize_for_mobile content = content := by
  have hrep : mobileRepack content = content := by
    unfold mobileRepack
    have hmap : (splitOnNl2 content).map processParagraph
        = (splitOnNl2 content).map (fun p => [p]) := by
      apply List.map_congr_left
      intro p hp
      have hb := (List.all_eq_true.mp h75) p hp
      exact processParagraph_short p (by simpa using hb)
    rw [hmap, flatten_map_singleton, joinSep_splitOnNl2]
  unfold optimize_for_mobile
  rw [hrep]
  unfold bulletStep
  have hfind : list_indicators.find?
      (fun ind => containsSub ind (pyLower content)
        && hasIndicatorPeriod ind (pyLower content)) = none := by
    rw [List.find?_eq_none]
    intro ind hi
    have hni := (List.all_eq_true.mp hind) ind hi
    simp only [Bool.not_eq_true'] at hni
    simp [hni]
  rw [hfind]

/-- Witness for C5 amended at a compliant two-paragraph text. -/
theorem C5_amended_fixed_point_witness :
    (splitOnNl2 compliantText).all (fun p => (pySplitWs p).length ≤ 75) = true
    ∧ list_indicators.all
        (fun ind => !hasIndicatorPeriod ind (pyLower compliantText)) = true
    ∧ optimize_for_mobile compliantText = compliantText :=
  ⟨by decide, by decide, C5_amended_fixed_point compliantText (by decide) (by decide)⟩

/-! ### C9 -/

/-- C9 counterexample: a 26-word sentence with a qualifying conjunction
    occurrence (its second `and`, left clause of 15 words) is left
    unsplit, because the code only examines the first occurrence of each
    conjunction. -/
theorem C9_counterexample :
    25 < (pySplitWs ex9).length
    ∧ (specFirstQualifyingSplit ex9).isSome = true
    ∧ processSentence ex9 = [ex9] :=
  ⟨by decide, by decide, by decide⟩

/-- C9 amended: conjunctions are examined in fixed table order, each only
    at its first occurrence in the sentence; the split happens at the
    first conjunction of the table whose first occurrence leaves a left
    clause of strictly between 10 and 20 words, and the sentence is left
    whole when no conjunction qualifies. -/
theorem C9_amended_split_rule (sentence : Text)
    (h25 : 25 < (pySplitWs sentence).length) :
    (∀ i, findBestSplit sentence = some i →
      processSentence sentence
          = [pyStrip (sentence.take i), pyStrip (sentence.drop i)]
        ∧ 10 < (pySplitWs (sentence.take i)).length
        ∧ (pySplitWs (sentence.take i)).length < 20
        ∧ ∃ point ∈ split_points, idxOfSub point (pyLower sentence) = some i)
    ∧ (findBestSplit sentence = none → processSentence sentence = [sentence]) := by
  constructor
  · intro i hi
    obtain ⟨point, hpt, hp⟩ := List.exists_of_findSome?_eq_some hi
    have hqual : 10 < (pySplitWs (sentence.take i)).length
        ∧ (pySplitWs (sentence.take i)).length < 20
        ∧ idxOfSub point (pyLower sentence) = some i := by
      cases hidx : idxOfSub point (pyLower sentence) with
      | none => rw [hidx] at hp; exact absurd hp (by simp)
      | some j =>
        rw [hidx] at hp
        have hp2 : (if 10 < (pySplitWs (sentence.take j)).length
            ∧ (pySplitWs (sentence.take j)).length < 20
            then some j else (none : Option Nat)) = some i := hp
        by_cases hc : 10 < (pySplitWs (sentence.take j)).length
            ∧ (pySplitWs (sentence.take j)).length < 20
        · rw [if_pos hc] at hp2
          obtain rfl : j = i := by simpa using hp2
          exact ⟨hc.1, hc.2, rfl⟩
        · rw [if_neg hc] at hp2; exact absurd hp2 (by simp)
    have hne : i ≠ 0 := by
      intro h0
      rw [h0] at hqual
      simp [pySplitWs, splitWsAux] at hqual
    refine ⟨?_, hqual.1, hqual.2.1, point, hpt, hqual.2.2⟩
    simp only [processSentence, hi]
    rw [if_pos h25, if_pos hne]
  · intro hn
    simp only [processSentence]
    rw [if_pos h25, hn]

/-- Witness for C9 amended: the 30-word `because` sentence with a 14-word
    left clause is split at character 28, and a 30-word sentence with no
    conjunction stays whole. -/
theorem C9_amended_split_rule_witness :
    25 < (pySplitWs exB).length
    ∧ processSentence exB
        = [joinSep (lit " ") (List.replicate 14 (lit "w")),
           joinSep (lit " ") (lit "because" :: List.replicate 15 (lit "w"))]
    ∧ processSentence exC = [exC] := by
  refine ⟨by decide, ?_, ?_⟩
  · have h := ((C9_amended_split_rule exB (by decide)).1 28 (by decide)).1
    rw [h]; decide
  · exact (C9_amended_split_rule exC (by decide)).2 (by decide)

/-! ### C6 -/

/-- C6 counterexample: on the spec brief the extracted business name is
    `Spice Route`, but the location capture `[^,\n]+` stops at the comma,
    so the location is `Bandra West` and does not contain
    `Bandra West, Mumbai`. -/
theorem C6_counterexample :
    (extract_business_info brief6).name = lit "Spice Route"
    ∧ (extract_business_info brief6).location = lit "Bandra West"
    ∧ containsSub (lit "Bandra West, Mumbai")
        (extract_business_info brief6).location = false :=
  ⟨by decide, by decide, by decide⟩

/-- C6 amended: on the spec brief, extraction returns business name
    `Spice Route` and location exactly `Bandra West` (which contains
    `Bandra West` but not the following `, Mumbai`). -/
theorem C6_amended_extraction :
    (extract_business_info brief6).name = lit "Spice Route"
    ∧ (extract_business_info brief6).location = lit "Bandra West"
    ∧ containsSub (lit "Bandra West")
        (extract_business_info brief6).location = true :=
  ⟨by decide, by decide, by decide⟩

/-! ### C7 -/

/-- C7: field extraction applies its patterns in order and title-cases
    the first match; when no pattern of a field matches, the named
    default is returned, never an error (the function is total). -/
theorem C7_extraction_defaults (brief : Text) :
    ((∀ pat ∈ name_patterns,
        searchWith pat tryWsCapture (pyLower brief) = none) →
      (extract_business_info brief).name = lit "Your Business")
    ∧ (∀ g, searchWith (lit "restaurant name:") tryWsCapture (pyLower brief)
          = some g →
        (extract_business_info brief).name = pyTitle (pyStrip g))
    ∧ ((∀ m ∈ location_matchers, m (pyLower brief) = none) →
        (extract_business_info brief).location = lit "India")
    ∧ (searchWith (lit "₹") tryPriceTail brief = none →
        (extract_business_info brief).price_range = lit "₹200-500")
    ∧ (searchAge brief = none →
        (extract_business_info brief).target_age = lit "25-35") := by
  refine ⟨fun hall => ?_, fun g hg => ?_, fun hloc => ?_, fun hp => ?_,
    fun ha => ?_⟩
  · have hn : name_patterns.findSome?
        (fun pat => searchWith pat tryWsCapture (pyLower brief)) = none :=
      List.findSome?_eq_none_iff.mpr hall
    simp only [extract_business_info, hn]
  · have hn : name_patterns.findSome?
        (fun pat => searchWith pat tryWsCapture (pyLower brief)) = some g := by
      rw [name_patterns, List.findSome?_cons]
      simp only [hg]
    simp only [extract_business_info, hn]
  · have hn : location_matchers.findSome? (fun m => m (pyLower brief)) = none :=
      List.findSome?_eq_none_iff.mpr hloc
    simp only [extract_business_info, hn]
  · simp only [extract_business_info, hp]
  · simp only [extract_business_info, ha]

/-- Witness for C7: every field falls back to its default on a brief
    matching nothing, and the first name pattern match is title-cased. -/
theorem C7_extraction_defaults_witness :
    (extract_business_info brief7).name = lit "Your Business"
    ∧ (extract_business_info brief7).location = lit "India"
    ∧ (extract_business_info brief7).price_range = lit "₹200-500"
    ∧ (extract_business_info brief7).target_age = lit "25-35"
    ∧ (extract_business_info brief7b).name = pyTitle (pyStrip (lit "tea house")) :=
  ⟨(C7_extraction_defaults brief7).1 (by decide),
   (C7_extraction_defaults brief7).2.2.1 (by decide),
   (C7_extraction_defaults brief7).2.2.2.1 (by decide),
   (C7_extraction_defaults brief7).2.2.2.2 (by decide),
   (C7_extraction_defaults brief7b).2.1 (lit "tea house") (by decide)⟩

/-! ### C10 -/

/-- A digit run is empty when the head is not a digit. -/
theorem takeWhile_isDigit_nil (l : Text)
    (h : ∀ c, l.head? = some c → c.isDigit = false) :
    l.takeWhile Char.isDigit = [] := by
  cases l with
  | nil => rfl
  | cons c cs =>
    rw [List.takeWhile_cons, h c rfl]
    simp

/-- `(\d+)-(\d+)` cannot match at a position whose head is not a digit. -/
theorem tryAge_none (l : Text)
    (h : ∀ c, l.head? = some c → c.isDigit = false) :
    tryAge l = none := by
  simp only [tryAge, takeWhile_isDigit_nil l h]
  rfl

/-- The search for `(\d+)-(\d+)` skips over a digit-free prefix. -/
theorem searchAge_append (pre T : Text)
    (hpre : ∀ c ∈ pre, c.isDigit = false) :
    searchAge (pre ++ T) = searchAge T := by
  induction pre with
  | nil => rfl
  | cons c cs ih =>
    have hnone : tryAge (c :: (cs ++ T)) = none :=
      tryAge_none _ (by
        intro x hx
        rw [List.head?_cons, Option.some.injEq] at hx
        exact hx ▸ hpre c (List.mem_cons_self c cs))
    rw [List.cons_append]
    simp only [searchAge, hnone]
    exact ih (fun d hd => hpre d (List.mem_cons_of_mem c hd))

/-- `(\d+)-(\d+)` matched at `200-500` followed by a non-digit gives the
    groups `200` and `500`. -/
theorem tryAge_200 (X : Text)
    (hX : ∀ c, X.head? = some c → c.isDigit = false) :
    tryAge (lit "200-500" ++ X) = some (lit "200", lit "500") := by
  have e : lit "200-500" ++ X
      = '2' :: '0' :: '0' :: '-' :: '5' :: '0' :: '0' :: X := rfl
  have hd2 : '2'.isDigit = true := rfl
  have hd0 : '0'.isDigit = true := rfl
  have hd5 : '5'.isDigit = true := rfl
  have hdm : '-'.isDigit = false := rfl
  have h1 : ('2' :: '0' :: '0' :: '-' :: '5' :: '0' :: '0' :: X).takeWhile
      Char.isDigit = ['2', '0', '0'] := by
    rw [List.takeWhile_cons, List.takeWhile_cons, List.takeWhile_cons,
      List.takeWhile_cons]
    simp [hd2, hd0, hdm]
  have h2 : ('5' :: '0' :: '0' :: X).takeWhile Char.isDigit
      = ['5', '0', '0'] := by
    rw [List.takeWhile_cons, List.takeWhile_cons, List.takeWhile_cons,
      takeWhile_isDigit_nil X hX]
    simp [hd5, hd0]
  rw [e]
  simp only [tryAge, h1]
  norm_num
  exact ⟨by decide, rfl, by decide, by rw [h2]; decide⟩

/-- One search step when the pattern fails at the current position. -/
theorem searchAge_cons_none (c : Char) (cs : Text)
    (h : tryAge (c :: cs) = none) : searchAge (c :: cs) = searchAge cs := by
  simp only [searchAge, h]

/-- One search step when the pattern matches at the current position. -/
theorem searchAge_cons_some (c : Char) (cs : Text) (r : Text × Text)
    (h : tryAge (c :: cs) = some r) : searchAge (c :: cs) = some r := by
  simp only [searchAge, h]

/-- The first `(\d+)-(\d+)` match of `₹200-500`, then a digit-free
    nonempty stretch, then `25-35`, is the price pair `200`, `500`. -/
theorem searchAge_T (mid post : Text)
    (hmid : ∀ c ∈ mid, c.isDigit = false) (hmid0 : mid ≠ []) :
    searchAge (lit "₹200-500" ++ (mid ++ (lit "25-35" ++ post)))
      = some (lit "200", lit "500") := by
  obtain ⟨m, ms, rfl⟩ := List.exists_cons_of_ne_nil hmid0
  have hXhead : ∀ c, ((m :: ms) ++ (lit "25-35" ++ post)).head? = some c →
      c.isDigit = false := by
    intro x hx
    rw [List.cons_append, List.head?_cons, Option.some.injEq] at hx
    exact hx ▸ hmid m (List.mem_cons_self m ms)
  rw [show lit "₹200-500" ++ ((m :: ms) ++ (lit "25-35" ++ post))
      = '₹' :: (lit "200-500" ++ ((m :: ms) ++ (lit "25-35" ++ post))) from rfl]
  rw [searchAge_cons_none _ _ (tryAge_none _ (by
    intro x hx
    rw [List.head?_cons, Option.some.injEq] at hx
    exact hx ▸ rfl))]
  rw [show lit "200-500" ++ ((m :: ms) ++ (lit "25-35" ++ post))
      = '2' :: (lit "00-500" ++ ((m :: ms) ++ (lit "25-35" ++ post))) from rfl]
  apply searchAge_cons_some
  rw [show '2' :: (lit "00-500" ++ ((m :: ms) ++ (lit "25-35" ++ post)))
      = lit "200-500" ++ ((m :: ms) ++ (lit "25-35" ++ post)) from rfl]
  exact tryAge_200 _ hXhead

/-- `₹(\d+)-(\d+)` cannot match right after a rupee sign at a position
    whose following character is not a digit. -/
theorem tryPriceTail_none (l : Text)
    (h : ∀ c, l.head? = some c → c.isDigit = false) :
    tryPriceTail l = none := by
  simp only [tryPriceTail, tryAge_none l h]

/-- The search for `₹(\d+)-(\d+)` skips over a digit-free prefix. -/
theorem searchPrice_append (pre T : Text)
    (hpre : ∀ c ∈ pre, c.isDigit = false)
    (hT : ∀ c, T.head? = some c → c.isDigit = false) :
    searchWith (lit "₹") tryPriceTail (pre ++ T)
      = searchWith (lit "₹") tryPriceTail T := by
  induction pre with
  | nil => rfl
  | cons c cs ih =>
    have ih2 := ih (fun d hd => hpre d (List.mem_cons_of_mem c hd))
    have htail : tryPriceTail (cs ++ T) = none := by
      apply tryPriceTail_none
      intro x hx
      cases cs with
      | nil => exact hT x hx
      | cons d ds =>
        rw [List.cons_append, List.head?_cons, Option.some.injEq] at hx
        exact hx ▸ hpre d (List.mem_cons_of_mem c (List.mem_cons_self d ds))
    rw [List.cons_append]
    simp only [searchWith]
    by_cases hc : (lit "₹").isPrefixOf (c :: (cs ++ T)) = true
    · rw [if_pos hc]
      rw [show List.drop (lit "₹").length (c :: (cs ++ T)) = cs ++ T from rfl]
      rw [htail]
      exact ih2
    · rw [if_neg hc]
      exact ih2

/-- The rupee-anchored price search on `₹200-500` followed by a digit-free
    nonempty stretch returns the matched digits. -/
theorem searchPrice_T (mid post : Text)
    (hmid : ∀ c ∈ mid, c.isDigit = false) (hmid0 : mid ≠ []) :
    searchWith (lit "₹") tryPriceTail
        (lit "₹200-500" ++ (mid ++ (lit "25-35" ++ post)))
      = some (lit "200" ++ '-' :: lit "500") := by
  obtain ⟨m, ms, rfl⟩ := List.exists_cons_of_ne_nil hmid0
  have hXhead : ∀ c, ((m :: ms) ++ (lit "25-35" ++ post)).head? = some c →
      c.isDigit = false := by
    intro x hx
    rw [List.cons_append, List.head?_cons, Option.some.injEq] at hx
    exact hx ▸ hmid m (List.mem_cons_self m ms)
  rw [show lit "₹200-500" ++ ((m :: ms) ++ (lit "25-35" ++ post))
      = '₹' :: (lit "200-500" ++ ((m :: ms) ++ (lit "25-35" ++ post))) from rfl]
  simp only [searchWith]
  rw [if_pos (show (lit "₹").isPrefixOf
      ('₹' :: (lit "200-500" ++ ((m :: ms) ++ (lit "25-35" ++ post)))) = true
      by simp [lit, List.isPrefixOf])]
  rw [show List.drop (lit "₹").length
      ('₹' :: (lit "200-500" ++ ((m :: ms) ++ (lit "25-35" ++ post))))
      = lit "200-500" ++ ((m :: ms) ++ (lit "25-35" ++ post)) from rfl]
  rw [show tryPriceTail (lit "200-500" ++ ((m :: ms) ++ (lit "25-35" ++ post)))
      = some (lit "200" ++ '-' :: lit "500") by
    simp only [tryPriceTail, tryAge_200 _ hXhead]]

/-- C10: the age pattern `(\d+)-(\d+)` has no rupee anchor, so on a brief
    whose price range `₹200-500` precedes any age text the target age is
    extracted from the price digits, not from the audience age. -/
theorem C10_target_age_from_price (pre mid post : Text)
    (hpre : ∀ c ∈ pre, c.isDigit = false)
    (hmid : ∀ c ∈ mid, c.isDigit = false)
    (hmid0 : mid ≠ []) :
    (extract_business_info
        (pre ++ (lit "₹200-500" ++ (mid ++ (lit "25-35" ++ post))))).target_age
      = lit "200-500"
    ∧ (extract_business_info
        (pre ++ (lit "₹200-500" ++ (mid ++ (lit "25-35" ++ post))))).price_range
      = lit "₹200-500"
    ∧ (extract_business_info
        (pre ++ (lit "₹200-500" ++ (mid ++ (lit "25-35" ++ post))))).target_age
      ≠ lit "25-35" := by
  have hT : ∀ c, (lit "₹200-500" ++ (mid ++ (lit "25-35" ++ post))).head?
      = some c → c.isDigit = false := by
    intro x hx
    rw [show lit "₹200-500" ++ (mid ++ (lit "25-35" ++ post))
        = '₹' :: (lit "200-500" ++ (mid ++ (lit "25-35" ++ post))) from rfl,
      List.head?_cons, Option.some.injEq] at hx
    exact hx ▸ rfl
  have hage : searchAge
      (pre ++ (lit "₹200-500" ++ (mid ++ (lit "25-35" ++ post))))
      = some (lit "200", lit "500") := by
    rw [searchAge_append pre _ hpre]
    exact searchAge_T mid post hmid hmid0
  have hpr : searchWith (lit "₹") tryPriceTail
      (pre ++ (lit "₹200-500" ++ (mid ++ (lit "25-35" ++ post))))
      = some (lit "200" ++ '-' :: lit "500") := by
    rw [searchPrice_append pre _ hpre hT]
    exact searchPrice_T mid post hmid hmid0
  refine ⟨?_, ?_, ?_⟩
  · simp only [extract_business_info, hage]
    decide
  · simp only [extract_business_info, hpr]
    decide
  · simp only [extract_business_info, hage]
    decide

/-- Witness for C10 at the brief
    `Menu: ₹200-500, ages 25-35 urban`. -/
theorem C10_target_age_from_price_witness :
    (∀ c ∈ pre10, c.isDigit = false)
    ∧ (∀ c ∈ mid10, c.isDigit = false)
    ∧ mid10 ≠ []
    ∧ (extract_business_info
        (pre10 ++ (lit "₹200-500" ++ (mid10 ++ (lit "25-35" ++ post10))))).target_age
      = lit "200-500"
    ∧ (extract_business_info
        (pre10 ++ (lit "₹200-500" ++ (mid10 ++ (lit "25-35" ++ post10))))).price_range
      = lit "₹200-500" :=
  ⟨by decide, by decide, by decide,
   (C10_target_age_from_price pre10 mid10 post10
      (by decide) (by decide) (by decide)).1,
   (C10_target_age_from_price pre10 mid10 post10
      (by decide) (by decide) (by decide)).2.1⟩

end CMT
